import Mathlib

/-!
Shallow embedding of the incremental sync engine in `src/fetch_coros_data.py`
(COROS Team API data fetcher): the activity pagination/merge loop
(`fetch_activities` / `sync_activities`), the daily-metrics day-keyed merge
(`sync_analyse`), the dashboard refresh (`sync_dashboard`) and the batch
entry point (`main`).

Modelling conventions:
* A JSON activity record is reduced to the fields the sync logic reads
  (`labelId`, `startTime`) plus an uninterpreted `payload` standing for all
  passthrough vendor fields.  Python's `a.get("startTime", 0)` default is
  absorbed into the `startTime` field (a record with no start time carries 0).
* An HTTP-level failure (`resp.raise_for_status()` raising) is a distinct
  constructor from a well-formed envelope, since the former propagates as an
  exception while the latter is inspected for `result != "0000"`.
* The remote side is a list of responses served for pages 1, 2, 3, …; a page
  requested beyond the end of the list is served as a success envelope with an
  empty `dataList` (the "no more data" shape).  Every request made is counted,
  including that one.
* Python dicts are association lists keeping insertion order; assigning an
  existing key updates the value in place, assigning a fresh key appends.
* Python's stable `list.sort` (with a key and optional `reverse=True`) is
  modelled by `List.insertionSort` under the corresponding total preorder;
  any two stable sorts agree, so this is faithful.
-/

namespace Coros

/-- One activity record as the sync logic sees it: the vendor key `labelId`,
the ordering key `startTime` (epoch seconds; `a.get("startTime", 0)`), and an
uninterpreted payload for every other vendor field. -/
structure Activity where
  labelId : String
  startTime : Int
  payload : String
  deriving DecidableEq, Repr

/-- The remote's answer to one activity page request: either an HTTP-level
error (which `resp.raise_for_status()` turns into an exception), or a parsed
envelope carrying `result`, `data.dataList` and `data.totalPage`. -/
inductive PageResp where
  | httpError : PageResp
  | envelope : String → List Activity → Nat → PageResp
  deriving DecidableEq, Repr

/-- Outcome of the pagination loop: `raised n` means an HTTP error escaped as
an exception after `n` page requests (the accumulated buffer is lost to the
caller); `done l n` means the loop ended normally returning buffer `l` after
`n` page requests. -/
inductive FetchOut where
  | raised : Nat → FetchOut
  | done : List Activity → Nat → FetchOut
  deriving DecidableEq, Repr

/-- Number of page requests the fetch made. -/
def FetchOut.requested : FetchOut → Nat
  | .raised n => n
  | .done _ n => n

/-- New-items buffer of a normally finished fetch (`[]` for a raised one). -/
def FetchOut.items : FetchOut → List Activity
  | .raised _ => []
  | .done l _ => l

/-- The `while True` body of `fetch_activities` (src/fetch_coros_data.py,
lines 102-137), recursing over the list of responses the server will give to
pages `page, page+1, …`; `acc` is `all_new`, `reqd` counts requests made. -/
def fetchLoop (known : List String) :
    List PageResp → Nat → List Activity → Nat → FetchOut
  | [], _, acc, reqd => .done acc (reqd + 1)
  | PageResp.httpError :: _, _, _, reqd => .raised (reqd + 1)
  | PageResp.envelope result dataList totalPage :: rest, page, acc, reqd =>
    if result ≠ "0000" then .done acc (reqd + 1)
    else if dataList = [] then .done acc (reqd + 1)
    else
      let newOnPage := dataList.filter (fun a => decide (a.labelId ∉ known))
      let acc2 := acc ++ newOnPage
      if newOnPage.length = 0 then .done acc2 (reqd + 1)
      else if newOnPage.length < dataList.length then .done acc2 (reqd + 1)
      else if totalPage ≤ page then .done acc2 (reqd + 1)
      else fetchLoop known rest (page + 1) acc2 (reqd + 1)

/-- `fetch_activities(known_ids)`: start at page 1 with an empty `all_new`. -/
def fetch_activities (known : List String) (remote : List PageResp) : FetchOut :=
  fetchLoop known remote 1 [] 0

/-- The items a response carries: the envelope's `dataList`; an HTTP-level
failure delivers no data at all. -/
def PageResp.dataItems : PageResp → List Activity
  | .httpError => []
  | .envelope _ dl _ => dl

/-- The descending-`startTime` ordering used by
`merged.sort(key=lambda a: a.get("startTime", 0), reverse=True)`. -/
def startTimeGe (a b : Activity) : Prop := b.startTime ≤ a.startTime

instance : DecidableRel startTimeGe := fun a b => Int.decLe b.startTime a.startTime

instance : IsTotal Activity startTimeGe := ⟨fun a b => le_total b.startTime a.startTime⟩

instance : IsTrans Activity startTimeGe := ⟨fun _ _ _ h1 h2 => le_trans h2 h1⟩

/-- Result channel of `sync_activities`: `raised` when the fetch's HTTP
exception propagated out uncaught, `ok ids n` carrying the returned id set
(as the underlying list) and the number of page requests made. -/
inductive SyncActOut where
  | raised : Nat → SyncActOut
  | ok : List String → Nat → SyncActOut
  deriving DecidableEq, Repr

/-- `sync_activities()` (src/fetch_coros_data.py, lines 142-156) acting on the
contents of `ACTIVITIES_FILE` (`none` when the file does not exist): load
existing, derive `known_ids`, fetch, and persist the sorted merge only when
there are new items.  An HTTP exception escapes before any write. -/
def sync_activities (file : Option (List Activity)) (remote : List PageResp) :
    Option (List Activity) × SyncActOut :=
  let existing := file.getD []
  let known := existing.map (fun a => a.labelId)
  match fetch_activities known remote with
  | .raised n => (file, .raised n)
  | .done newItems n =>
    if newItems = [] then
      (file, .ok ((newItems ++ existing).map (fun a => a.labelId)) n)
    else
      (some (List.insertionSort startTimeGe (newItems ++ existing)),
       .ok ((newItems ++ existing).map (fun a => a.labelId)) n)

/-- One day record of the metrics bundle: key `happenDay` (YYYYMMDD), the
`vo2max` metric singled out because the spec's immutability example names it,
and an uninterpreted payload for the remaining fields. -/
structure DayRec where
  happenDay : Nat
  vo2max : Int
  payload : String
  deriving DecidableEq, Repr

/-- A top-level JSON value of the metrics bundle: either the day-keyed
`dayList` (a list of day records) or an uninterpreted rollup blob. -/
inductive Val where
  | days : List DayRec → Val
  | blob : String → Val
  deriving DecidableEq, Repr

/-- A JSON object as an insertion-ordered association list (a Python dict). -/
abbrev Bundle := List (String × Val)

/-- Python dict read `m.get(k)` / `k in m`: first binding of `k`. -/
def dictLookup {κ ν : Type} [DecidableEq κ] (k : κ) : List (κ × ν) → Option ν
  | [] => none
  | (a, b) :: rest => if a = k then some b else dictLookup k rest

/-- Python dict write `m[k] = v`: update in place if the key exists
(keeping its position), else append at the end. -/
def dictSet {κ ν : Type} [DecidableEq κ] : List (κ × ν) → κ → ν → List (κ × ν)
  | [], k, v => [(k, v)]
  | (a, b) :: rest, k, v =>
    if a = k then (a, v) :: rest else (a, b) :: dictSet rest k v

/-- `bundle.get("dayList", [])`, assuming the stored value is day-shaped
(the vendor's documents always are). -/
def getDayList (b : Bundle) : List DayRec :=
  match dictLookup "dayList" b with
  | some (Val.days l) => l
  | _ => []

/-- The mapping `{d["happenDay"]: d for d in …}` built left to right. -/
abbrev DayMap := List (Nat × DayRec)

/-- `existing_days = {d["happenDay"]: d for d in existing.get("dayList", [])}`. -/
def buildDayMap (l : List DayRec) : DayMap :=
  l.foldl (fun m d => dictSet m d.happenDay d) []

/-- The insertion pass over the remote days: `if hd not in existing_days:
existing_days[hd] = day` (a fresh key appends at the end). -/
def mergeDays (m : DayMap) (apiDays : List DayRec) : DayMap :=
  apiDays.foldl
    (fun m day =>
      if (dictLookup day.happenDay m).isSome then m else m ++ [(day.happenDay, day)])
    m

/-- The ascending-`happenDay` ordering used by
`sorted(existing_days.values(), key=lambda d: d["happenDay"])`. -/
def dayKeyLe (a b : DayRec) : Prop := a.happenDay ≤ b.happenDay

instance : DecidableRel dayKeyLe := fun a b => Nat.decLe a.happenDay b.happenDay

instance : IsTotal DayRec dayKeyLe := ⟨fun a b => le_total a.happenDay b.happenDay⟩

instance : IsTrans DayRec dayKeyLe := ⟨fun _ _ _ h1 h2 => le_trans h1 h2⟩

/-- The remote's answer to the one-shot `analyse/query` call. -/
inductive AnalyseResp where
  | httpError : AnalyseResp
  | envelope : String → Bundle → AnalyseResp
  deriving DecidableEq, Repr

/-- Whether a one-shot sync step let an HTTP exception escape (`raised`) or
returned normally (`done`, covering both the merge and the logged-error
early return). -/
inductive SyncOut where
  | raised : SyncOut
  | done : SyncOut
  deriving DecidableEq, Repr

/-- The merged `dayList` the code computes: day-keyed dict of the existing
days, unseen remote days appended, values re-sorted ascending by
`happenDay`. -/
def mergeDayList (existing api_data : Bundle) : List DayRec :=
  List.insertionSort dayKeyLe
    ((mergeDays (buildDayMap (getDayList existing)) (getDayList api_data)).map Prod.snd)

/-- The rollup pass `for key in api_data: if key != "dayList":
existing[key] = api_data[key]`. -/
def rollupOverwrite (api_data e : Bundle) : Bundle :=
  api_data.foldl (fun e kv => if kv.1 = "dayList" then e else dictSet e kv.1 kv.2) e

/-- The whole document `sync_analyse` persists in the merge path. -/
def mergedBundle (existing api_data : Bundle) : Bundle :=
  rollupOverwrite api_data
    (dictSet existing "dayList" (Val.days (mergeDayList existing api_data)))

/-- `sync_analyse()` (src/fetch_coros_data.py, lines 162-200) acting on the
contents of `ANALYSE_FILE`: bootstrap verbatim when no local document exists;
otherwise insert only unseen `happenDay`s, re-sort the day list ascending,
overwrite every other top-level remote key wholesale, and persist. -/
def sync_analyse (file : Option Bundle) (resp : AnalyseResp) :
    Option Bundle × SyncOut :=
  match resp with
  | .httpError => (file, .raised)
  | .envelope result api_data =>
    if result ≠ "0000" then (file, .done)
    else
      match file with
      | none => (some api_data, .done)
      | some existing => (some (mergedBundle existing api_data), .done)

/-- The remote's answer to the one-shot `dashboard/detail/query` call. -/
inductive DashResp where
  | httpError : DashResp
  | envelope : String → Val → DashResp
  deriving DecidableEq, Repr

/-- `sync_dashboard()` (src/fetch_coros_data.py, lines 206-217) acting on the
contents of `DASHBOARD_FILE`: full refresh on success, no write otherwise. -/
def sync_dashboard (file : Option Val) (resp : DashResp) :
    Option Val × SyncOut :=
  match resp with
  | .httpError => (file, .raised)
  | .envelope result d =>
    if result ≠ "0000" then (file, .done)
    else (some d, .done)

/-- The sync-metadata record (`fetch_meta.json`). -/
structure Meta where
  last_fetch : Option String
  known_label_ids : List String
  latest_happen_day : Option Nat
  deriving DecidableEq, Repr

/-- The process configuration and the remote behaviour for one run. -/
structure Env where
  access_token : String
  actRemote : List PageResp
  analyseResp : AnalyseResp
  dashResp : DashResp
  deriving DecidableEq, Repr

/-- The on-disk state the run reads and writes (`none` = file absent). -/
structure Store where
  activities : Option (List Activity)
  analyse : Option Bundle
  dashboard : Option Val
  meta : Option Meta
  deriving DecidableEq, Repr

/-- How the batch run ended: `configError` is the `raise SystemExit(1)` taken
before any network call; `raised` is an unhandled exception from a sync step
aborting the rest of the run; `ok` is normal completion. -/
inductive MainOut where
  | configError : MainOut
  | raised : MainOut
  | ok : MainOut
  deriving DecidableEq, Repr

/-- `main()` (src/fetch_coros_data.py, lines 223-248): token check first, then
Activities → Analyse → Dashboard → metadata save.  The third component counts
network calls made (activity page requests plus one per one-shot sync
reached).  `list(set)[:50]` iterates a Python set in unspecified order; it is
modelled by `dedup.take 50`, which no statement below depends on. -/
def main (env : Env) (now : String) (s : Store) : Store × MainOut × Nat :=
  if env.access_token = "" then (s, .configError, 0)
  else
    let meta0 := s.meta.getD ⟨none, [], none⟩
    match sync_activities s.activities env.actRemote with
    | (f1, .raised n) => ({ s with activities := f1 }, .raised, n)
    | (f1, .ok ids n) =>
      let meta1 := { meta0 with known_label_ids := ids.dedup.take 50 }
      let s1 := { s with activities := f1 }
      match sync_analyse s1.analyse env.analyseResp with
      | (f2, .raised) => ({ s1 with analyse := f2 }, .raised, n + 1)
      | (f2, .done) =>
        let s2 := { s1 with analyse := f2 }
        match sync_dashboard s2.dashboard env.dashResp with
        | (f3, .raised) => ({ s2 with dashboard := f3 }, .raised, n + 2)
        | (f3, .done) =>
          let s3 := { s2 with dashboard := f3 }
          ({ s3 with meta := some { meta1 with last_fetch := some now } }, .ok, n + 2)

/-! Concrete records used by witnesses and counterexamples. -/

/-- Sample activity with labelId "A". -/
def actA : Activity := ⟨"A", 40, "pa"⟩

/-- Sample activity with labelId "B". -/
def actB : Activity := ⟨"B", 20, "pb"⟩

/-- Sample activity with labelId "C". -/
def actC : Activity := ⟨"C", 30, "pc"⟩

/-- Sample activity with labelId "D". -/
def actD : Activity := ⟨"D", 10, "pd"⟩

/-- Sample activity with labelId "X". -/
def actX : Activity := ⟨"X", 5, "px"⟩

/-- Sample activity with labelId "Y". -/
def actY : Activity := ⟨"Y", 3, "py"⟩

/-- Sample stored day record: 2025-06-01 with vo2max 50. -/
def dayJun1 : DayRec := ⟨20250601, 50, "q1"⟩

/-- The remote's later report of the same day with vo2max 52. -/
def dayJun1R : DayRec := ⟨20250601, 52, "q2"⟩

/-- Sample day record for 2025-06-02. -/
def dayJun2 : DayRec := ⟨20250602, 47, "q3"⟩

/-- Sample local metrics document: one stored day, a rollup, and a
local-only top-level key. -/
def exBundle : Bundle :=
  [("dayList", Val.days [dayJun1]), ("weekList", Val.blob "w1"),
   ("localOnly", Val.blob "L")]

/-- Sample remote metrics bundle: a conflicting report of the stored day, a
fresh day, and a fresh rollup value. -/
def apiBundle : Bundle :=
  [("dayList", Val.days [dayJun1R, dayJun2]), ("weekList", Val.blob "w2")]

/-! Theorems. -/

/-- C4: with known IDs {A, B} and a first fetched page [C, B, D] (C, D new,
B known), the fetch returns exactly [C, D] after a single page request (stop
condition B: a partially-new page ends pagination even though the reported
totalPage is larger), and the sync merges both C and D into the persisted
document. -/
theorem C4_partial_page_stop :
    fetch_activities ["A", "B"] [PageResp.envelope "0000" [actC, actB, actD] 5]
      = FetchOut.done [actC, actD] 1
    ∧ (sync_activities (some [actA, actB])
        [PageResp.envelope "0000" [actC, actB, actD] 5]).1
      = some [actA, actC, actB, actD] := by
  decide

/-- C7: when no local Daily Metrics document exists, a sync with a successful
envelope stores the entire remote bundle verbatim (day-keyed and rollup
fields alike) with no merge. -/
theorem C7_bootstrap (api : Bundle) :
    sync_analyse none (AnalyseResp.envelope "0000" api) = (some api, SyncOut.done) := by
  simp [sync_analyse]

/-- C8: with an empty access token, the batch run terminates as a fatal
configuration error, making zero network calls and touching no stored
state. -/
theorem C8_fail_fast (env : Env) (now : String) (s : Store)
    (h : env.access_token = "") :
    main env now s = (s, MainOut.configError, 0) := by
  simp [main, h]

/-- Witness for C8 at a concrete environment and store. -/
theorem C8_fail_fast_witness :
    main ⟨"", [], AnalyseResp.httpError, DashResp.httpError⟩ "t"
        ⟨none, none, none, none⟩
      = (⟨none, none, none, none⟩, MainOut.configError, 0) :=
  C8_fail_fast _ _ _ rfl

/-- C9: a failed Dashboard fetch — HTTP error or non-success envelope —
leaves the stored dashboard snapshot untouched (no write happens), while a
successful fetch replaces it wholesale with the new data. -/
theorem C9_dashboard (file : Option Val) (resp : DashResp) :
    ((resp = DashResp.httpError
        ∨ ∃ res d, resp = DashResp.envelope res d ∧ res ≠ "0000") →
      (sync_dashboard file resp).1 = file)
    ∧ (∀ d, resp = DashResp.envelope "0000" d →
      (sync_dashboard file resp).1 = some d) := by
  constructor
  · intro h
    rcases h with h | ⟨res, d, rfl, hres⟩
    · subst h; rfl
    · simp [sync_dashboard, hres]
  · intro d h
    subst h
    simp [sync_dashboard]

/-- Witness for C9: both failure modes leave a concrete old snapshot in
place, and a success replaces it. -/
theorem C9_dashboard_witness :
    (sync_dashboard (some (Val.blob "old")) DashResp.httpError).1
      = some (Val.blob "old")
    ∧ (sync_dashboard (some (Val.blob "old"))
        (DashResp.envelope "1999" (Val.blob "new"))).1 = some (Val.blob "old")
    ∧ (sync_dashboard (some (Val.blob "old"))
        (DashResp.envelope "0000" (Val.blob "new"))).1 = some (Val.blob "new") :=
  ⟨(C9_dashboard _ _).1 (Or.inl rfl),
   (C9_dashboard _ _).1 (Or.inr ⟨"1999", Val.blob "new", rfl, by decide⟩),
   (C9_dashboard _ _).2 _ rfl⟩

/-- A success page whose items are all filtered out as known stops the loop
at once, returning the buffer as-is. -/
theorem fetchLoop_stop_known (known : List String) (dl acc : List Activity)
    (tp page reqd : Nat) (rest : List PageResp)
    (hdl : dl ≠ [])
    (hfilter : dl.filter (fun a => decide (a.labelId ∉ known)) = []) :
    fetchLoop known (PageResp.envelope "0000" dl tp :: rest) page acc reqd
      = FetchOut.done acc (reqd + 1) := by
  simp only [fetchLoop, hfilter]
  simp [hdl]

/-- When every item on every served page is already known locally, the
pagination loop stops on its first page (or lets an HTTP exception escape)
with an empty buffer, so `sync_activities` performs no write. -/
theorem sync_activities_unchanged (file : Option (List Activity))
    (remote : List PageResp)
    (h : ∀ p ∈ remote, ∀ a ∈ PageResp.dataItems p,
      a.labelId ∈ (file.getD []).map (fun x => x.labelId)) :
    (sync_activities file remote).1 = file := by
  have hfetch : fetch_activities ((file.getD []).map (fun a => a.labelId)) remote
      = FetchOut.done [] 1
      ∨ fetch_activities ((file.getD []).map (fun a => a.labelId)) remote
      = FetchOut.raised 1 := by
    cases remote with
    | nil => left; rfl
    | cons p rest =>
      cases p with
      | httpError => right; rfl
      | envelope res dl tp =>
        left
        by_cases hres : res = "0000"
        · subst hres
          by_cases hdl : dl = []
          · subst hdl; simp [fetch_activities, fetchLoop]
          · have hfilter : dl.filter
                (fun a => decide (a.labelId ∉ (file.getD []).map (fun x => x.labelId)))
                = [] := by
              apply List.filter_eq_nil_iff.mpr
              intro a ha
              have hmem := h _ (List.mem_cons_self _ _) a ha
              simp [hmem]
            exact fetchLoop_stop_known _ _ _ _ _ _ _ hdl hfilter
        · simp only [fetch_activities, fetchLoop]
          simp [hres]
  unfold sync_activities
  rcases hfetch with hf | hf <;> simp [hf]

/-- C3: running the Activity sync a second time, when the remote serves no
item whose labelId is not already in the document persisted by the first
run, leaves the persisted document exactly as the first run left it (no
write is performed). -/
theorem C3_idempotent (file0 : Option (List Activity))
    (remote1 remote2 : List PageResp)
    (h : ∀ p ∈ remote2, ∀ a ∈ PageResp.dataItems p,
      a.labelId ∈ ((sync_activities file0 remote1).1.getD []).map
        (fun x => x.labelId)) :
    (sync_activities (sync_activities file0 remote1).1 remote2).1
      = (sync_activities file0 remote1).1 :=
  sync_activities_unchanged _ _ h

/-- Witness for C3: a first run persists X, a second run re-serving only X
leaves the document identical. -/
theorem C3_idempotent_witness :
    (sync_activities (sync_activities none [PageResp.envelope "0000" [actX] 1]).1
        [PageResp.envelope "0000" [actX] 1]).1
      = (sync_activities none [PageResp.envelope "0000" [actX] 1]).1 :=
  C3_idempotent none _ _ (by decide)

/-- C6: the Activity sync preserves the descending-startTime ordering
invariant: whenever the pre-existing document is sorted descending by
startTime (vacuously so when absent), the document after any sync run —
including runs that write a merged result — is sorted descending by
startTime. -/
theorem C6_ordering (file : Option (List Activity)) (remote : List PageResp)
    (h : (file.getD []).Sorted startTimeGe) :
    ((sync_activities file remote).1.getD []).Sorted startTimeGe := by
  unfold sync_activities
  cases hf : fetch_activities ((file.getD []).map (fun a => a.labelId)) remote with
  | raised n => simp [hf]; exact h
  | done newItems n =>
    by_cases hn : newItems = []
    · simp [hf, hn]; exact h
    · simp [hf, hn]
      exact List.sorted_insertionSort _ _

/-- Witness for C6: a sorted two-record document stays sorted after a run
that merges one new record. -/
theorem C6_ordering_witness :
    ((sync_activities (some [actA, actB])
        [PageResp.envelope "0000" [actC] 1]).1.getD []).Sorted startTimeGe :=
  C6_ordering _ _ (by decide)

/-- Looking up the key just written finds the written value. -/
theorem dictLookup_dictSet_self {κ ν : Type} [DecidableEq κ]
    (m : List (κ × ν)) (k : κ) (v : ν) :
    dictLookup k (dictSet m k v) = some v := by
  induction m with
  | nil => simp [dictSet, dictLookup]
  | cons p rest ih =>
    obtain ⟨a, b⟩ := p
    by_cases h : a = k
    · simp [dictSet, dictLookup, h]
    · simp [dictSet, dictLookup, h, ih]

/-- Writing one key leaves every other key's binding unchanged. -/
theorem dictLookup_dictSet_ne {κ ν : Type} [DecidableEq κ]
    (m : List (κ × ν)) (k k2 : κ) (v : ν) (h : k2 ≠ k) :
    dictLookup k2 (dictSet m k v) = dictLookup k2 m := by
  induction m with
  | nil => simp [dictSet, dictLookup, Ne.symm h]
  | cons p rest ih =>
    obtain ⟨a, b⟩ := p
    by_cases ha : a = k
    · subst ha
      simp [dictSet, dictLookup, Ne.symm h]
    · simp [dictSet, dictLookup, ha, ih]

/-- Re-writing a key with the value it already holds is a no-op. -/
theorem dictSet_of_lookup {κ ν : Type} [DecidableEq κ]
    (m : List (κ × ν)) (k : κ) (v : ν) (h : dictLookup k m = some v) :
    dictSet m k v = m := by
  induction m with
  | nil => simp [dictLookup] at h
  | cons p rest ih =>
    obtain ⟨a, b⟩ := p
    by_cases ha : a = k
    · subst ha
      simp [dictLookup] at h
      simp [dictSet, h]
    · simp [dictLookup, ha] at h
      simp [dictSet, ha, ih h]

/-- A lookup misses exactly when the key is absent. -/
theorem dictLookup_eq_none_iff {κ ν : Type} [DecidableEq κ]
    (m : List (κ × ν)) (k : κ) :
    dictLookup k m = none ↔ k ∉ m.map Prod.fst := by
  induction m with
  | nil => simp [dictLookup]
  | cons p rest ih =>
    obtain ⟨a, b⟩ := p
    by_cases ha : a = k
    · subst ha
      simp [dictLookup]
    · simp [dictLookup, ha, ih, Ne.symm ha]

/-- Writing an absent key appends the binding at the end. -/
theorem dictSet_fresh {κ ν : Type} [DecidableEq κ]
    (m : List (κ × ν)) (k : κ) (v : ν) (h : k ∉ m.map Prod.fst) :
    dictSet m k v = m ++ [(k, v)] := by
  induction m with
  | nil => simp [dictSet]
  | cons p rest ih =>
    obtain ⟨a, b⟩ := p
    simp only [List.map_cons, List.mem_cons] at h
    push_neg at h
    simp [dictSet, Ne.symm h.1, ih h.2]

/-- Lookup over an append tries the left part first. -/
theorem dictLookup_append {κ ν : Type} [DecidableEq κ]
    (m1 m2 : List (κ × ν)) (k : κ) :
    dictLookup k (m1 ++ m2)
      = match dictLookup k m1 with
        | some v => some v
        | none => dictLookup k m2 := by
  induction m1 with
  | nil => simp [dictLookup]
  | cons p rest ih =>
    obtain ⟨a, b⟩ := p
    by_cases ha : a = k
    · simp [dictLookup, ha]
    · simp [dictLookup, ha, ih]

/-- Folding `dictSet` over records with pairwise-distinct, all-fresh keys
appends their bindings in order. -/
theorem foldl_dictSet_fresh (l : List DayRec) (m : DayMap)
    (hnd : (l.map (fun d => d.happenDay)).Nodup)
    (hfresh : ∀ d ∈ l, d.happenDay ∉ m.map Prod.fst) :
    l.foldl (fun m d => dictSet m d.happenDay d) m
      = m ++ l.map (fun d => (d.happenDay, d)) := by
  induction l generalizing m with
  | nil => simp
  | cons d l ih =>
    rw [List.map_cons, List.nodup_cons] at hnd
    simp only [List.foldl_cons, List.map_cons]
    rw [dictSet_fresh m d.happenDay d (hfresh d (List.mem_cons_self _ _))]
    rw [ih (m ++ [(d.happenDay, d)])]
    · simp
    · exact hnd.2
    · intro e he
      simp only [List.map_append, List.mem_append]
      push_neg
      constructor
      · exact hfresh e (List.mem_cons_of_mem _ he)
      · simp only [List.map_cons, List.map_nil, List.mem_singleton]
        intro hc
        exact hnd.1 (hc ▸ List.mem_map_of_mem (fun d => d.happenDay) he)

/-- With pairwise-distinct `happenDay`s, the day dict holds exactly the
records' bindings in their original order. -/
theorem buildDayMap_eq (l : List DayRec)
    (hnd : (l.map (fun d => d.happenDay)).Nodup) :
    buildDayMap l = l.map (fun d => (d.happenDay, d)) := by
  have := foldl_dictSet_fresh l [] hnd (by simp)
  simpa [buildDayMap] using this

/-- The remote-day insertion pass only appends: the prior map is a prefix of
the result, and each appended binding is a remote day whose key the prior
map did not contain. -/
theorem mergeDays_spec (api : List DayRec) (m : DayMap) :
    ∃ extra, mergeDays m api = m ++ extra
      ∧ ∀ p ∈ extra, p.1 = p.2.happenDay ∧ p.2 ∈ api ∧ dictLookup p.1 m = none := by
  induction api generalizing m with
  | nil => exact ⟨[], by simp [mergeDays], by simp⟩
  | cons d api ih =>
    by_cases h : (dictLookup d.happenDay m).isSome
    · obtain ⟨extra, he, hp⟩ := ih m
      refine ⟨extra, ?_, ?_⟩
      · simpa [mergeDays, h] using he
      · intro p hpe
        obtain ⟨h1, h2, h3⟩ := hp p hpe
        exact ⟨h1, List.mem_cons_of_mem _ h2, h3⟩
    · obtain ⟨extra, he, hp⟩ := ih (m ++ [(d.happenDay, d)])
      refine ⟨(d.happenDay, d) :: extra, ?_, ?_⟩
      · have : mergeDays m (d :: api) = mergeDays (m ++ [(d.happenDay, d)]) api := by
          simp [mergeDays, h]
        rw [this, he]
        simp
      · intro p hpe
        rcases List.mem_cons.mp hpe with rfl | hpe2
        · exact ⟨rfl, List.mem_cons_self _ _, Option.not_isSome_iff_eq_none.mp h⟩
        · obtain ⟨h1, h2, h3⟩ := hp p hpe2
          refine ⟨h1, List.mem_cons_of_mem _ h2, ?_⟩
          rw [dictLookup_append] at h3
          revert h3
          cases hm : dictLookup p.1 m <;> simp

/-- The rollup overwrite pass never touches the `dayList` binding, nor any
key the remote bundle does not carry. -/
theorem rollupOverwrite_lookup (api e : Bundle) (k : String)
    (hk : k = "dayList" ∨ k ∉ api.map Prod.fst) :
    dictLookup k (rollupOverwrite api e) = dictLookup k e := by
  induction api generalizing e with
  | nil => rfl
  | cons kv rest ih =>
    obtain ⟨k1, v1⟩ := kv
    have hk2 : k = "dayList" ∨ k ∉ rest.map Prod.fst := by
      rcases hk with h | h
      · exact Or.inl h
      · right
        intro hc
        exact h (by simp [hc])
    by_cases h1 : k1 = "dayList"
    · subst h1
      simpa [rollupOverwrite] using ih e hk2
    · have hne : k ≠ k1 := by
        rcases hk with h | h
        · subst h; exact fun hc => h1 hc.symm
        · intro hc
          subst hc
          exact h (by simp)
      have hstep : rollupOverwrite ((k1, v1) :: rest) e
          = rollupOverwrite rest (dictSet e k1 v1) := by
        simp [rollupOverwrite, h1]
      rw [hstep, ih _ hk2, dictLookup_dictSet_ne _ _ _ _ hne]

/-- The persisted merge document's day list is the computed merged list. -/
theorem getDayList_mergedBundle (ex api : Bundle) :
    getDayList (mergedBundle ex api) = mergeDayList ex api := by
  unfold getDayList mergedBundle
  rw [rollupOverwrite_lookup _ _ _ (Or.inl rfl), dictLookup_dictSet_self]

/-- On a successful envelope with an existing local document, `sync_analyse`
persists exactly the merged bundle. -/
theorem sync_analyse_merge_eq (ex api : Bundle) :
    sync_analyse (some ex) (AnalyseResp.envelope "0000" api)
      = (some (mergedBundle ex api), SyncOut.done) := by
  simp [sync_analyse]

/-- C5: when the local Daily Metrics document exists (with pairwise-distinct
stored `happenDay`s, the maintained invariant), a sync run persists the
merged bundle in which every stored day record is kept verbatim — the unique
record at its `happenDay` is still the stored one even if the remote bundle
reports different values for that day — and every record of the new day list
is either a previously stored record or a remote record whose `happenDay`
was not yet present. -/
theorem C5_day_immutability (ex api : Bundle) (d : DayRec)
    (hnd : ((getDayList ex).map (fun x => x.happenDay)).Nodup)
    (hd : d ∈ getDayList ex) :
    (sync_analyse (some ex) (AnalyseResp.envelope "0000" api)).1
      = some (mergedBundle ex api)
    ∧ d ∈ getDayList (mergedBundle ex api)
    ∧ (∀ e ∈ getDayList (mergedBundle ex api),
        e.happenDay = d.happenDay → e = d)
    ∧ (∀ e ∈ getDayList (mergedBundle ex api),
        e ∈ getDayList ex
          ∨ (e ∈ getDayList api
             ∧ e.happenDay ∉ (getDayList ex).map (fun x => x.happenDay))) := by
  obtain ⟨extra, hme, hex⟩ := mergeDays_spec (getDayList api) (buildDayMap (getDayList ex))
  have hmap : (buildDayMap (getDayList ex)).map Prod.snd = getDayList ex := by
    rw [buildDayMap_eq _ hnd, List.map_map]
    simp only [Function.comp_def]
    simp
  have hkeys : (buildDayMap (getDayList ex)).map Prod.fst
      = (getDayList ex).map (fun x => x.happenDay) := by
    rw [buildDayMap_eq _ hnd, List.map_map]
    simp only [Function.comp_def]
  have hperm : List.Perm (mergeDayList ex api)
      (getDayList ex ++ extra.map Prod.snd) := by
    unfold mergeDayList
    rw [hme, List.map_append, hmap]
    exact List.perm_insertionSort _ _
  have hmem : ∀ e ∈ mergeDayList ex api,
      e ∈ getDayList ex ∨ ∃ p ∈ extra, p.2 = e := by
    intro e he
    rcases List.mem_append.mp (hperm.mem_iff.mp he) with h | h
    · exact Or.inl h
    · obtain ⟨p, hp, rfl⟩ := List.mem_map.mp h
      exact Or.inr ⟨p, hp, rfl⟩
  have hfresh : ∀ p ∈ extra, p.2 ∈ getDayList api
      ∧ p.2.happenDay ∉ (getDayList ex).map (fun x => x.happenDay) := by
    intro p hp
    obtain ⟨h1, h2, h3⟩ := hex p hp
    refine ⟨h2, ?_⟩
    rw [dictLookup_eq_none_iff, hkeys] at h3
    rw [← h1]
    exact h3
  have hL : getDayList (mergedBundle ex api) = mergeDayList ex api :=
    getDayList_mergedBundle ex api
  refine ⟨by rw [sync_analyse_merge_eq], ?_, ?_, ?_⟩
  · rw [hL]
    exact hperm.mem_iff.mpr (List.mem_append.mpr (Or.inl hd))
  · rw [hL]
    intro e he heq
    rcases hmem e he with h | ⟨p, hp, rfl⟩
    · exact List.inj_on_of_nodup_map hnd h hd heq
    · exfalso
      have hni := (hfresh p hp).2
      rw [heq] at hni
      exact hni (List.mem_map_of_mem _ hd)
  · rw [hL]
    intro e he
    rcases hmem e he with h | ⟨p, hp, rfl⟩
    · exact Or.inl h
    · exact Or.inr (hfresh p hp)

/-- Witness for C5 at the concrete documents: the stored 2025-06-01 record
(vo2max 50) is kept verbatim although the remote reports vo2max 52 for that
day, and only the unseen day 2025-06-02 is inserted. -/
theorem C5_day_immutability_witness :
    (sync_analyse (some exBundle) (AnalyseResp.envelope "0000" apiBundle)).1
      = some (mergedBundle exBundle apiBundle)
    ∧ dayJun1 ∈ getDayList (mergedBundle exBundle apiBundle)
    ∧ (∀ e ∈ getDayList (mergedBundle exBundle apiBundle),
        e.happenDay = dayJun1.happenDay → e = dayJun1)
    ∧ (∀ e ∈ getDayList (mergedBundle exBundle apiBundle),
        e ∈ getDayList exBundle
          ∨ (e ∈ getDayList apiBundle
             ∧ e.happenDay ∉ (getDayList exBundle).map (fun x => x.happenDay))) :=
  C5_day_immutability exBundle apiBundle dayJun1 (by decide) (by decide)

/-- C10: in the Daily Metrics merge path, every top-level key of the stored
local document that the remote bundle does not carry keeps its exact stored
value (given the maintained `dayList` invariant: the stored day list, when
present, is day-shaped, ascending and duplicate-free): the rollup overwrite
iterates only over remote keys, and the `dayList` rewrite reproduces the
stored list when the remote contributes no days. -/
theorem C10_local_keys_preserved (ex api : Bundle) (k : String)
    (hk : k ∈ ex.map Prod.fst)
    (hk2 : k ∉ api.map Prod.fst)
    (hwf : ∀ v, dictLookup "dayList" ex = some v →
      ∃ l, v = Val.days l ∧ l.Sorted dayKeyLe
        ∧ (l.map (fun x => x.happenDay)).Nodup) :
    (sync_analyse (some ex) (AnalyseResp.envelope "0000" api)).1
      = some (mergedBundle ex api)
    ∧ dictLookup k (mergedBundle ex api) = dictLookup k ex := by
  refine ⟨by rw [sync_analyse_merge_eq], ?_⟩
  by_cases hkd : k = "dayList"
  · subst hkd
    cases hv : dictLookup "dayList" ex with
    | none => exact absurd hk ((dictLookup_eq_none_iff ex "dayList").mp hv)
    | some v =>
      obtain ⟨l, rfl, hsort, hnd⟩ := hwf v hv
      have hgl : getDayList ex = l := by
        unfold getDayList
        rw [hv]
      have hga : getDayList api = [] := by
        unfold getDayList
        rw [(dictLookup_eq_none_iff api "dayList").mpr hk2]
      have hmd : mergeDays (buildDayMap (getDayList ex)) (getDayList api)
          = buildDayMap (getDayList ex) := by
        rw [hga]; rfl
      have hml : mergeDayList ex api = l := by
        unfold mergeDayList
        rw [hmd, hgl, buildDayMap_eq _ hnd]
        have hms : ((l.map (fun d => (d.happenDay, d))).map Prod.snd) = l := by
          rw [List.map_map]
          simp only [Function.comp_def]
          simp
        rw [hms]
        exact hsort.insertionSort_eq
      unfold mergedBundle
      rw [hml, rollupOverwrite_lookup _ _ _ (Or.inl rfl),
        dictSet_of_lookup _ _ _ hv]
      exact hv
  · unfold mergedBundle
    rw [rollupOverwrite_lookup _ _ _ (Or.inr hk2)]
    exact dictLookup_dictSet_ne _ _ _ _ hkd

/-- Witness for C10: the concrete local-only key survives a merge run
untouched. -/
theorem C10_local_keys_preserved_witness :
    (sync_analyse (some exBundle) (AnalyseResp.envelope "0000" apiBundle)).1
      = some (mergedBundle exBundle apiBundle)
    ∧ dictLookup "localOnly" (mergedBundle exBundle apiBundle)
      = dictLookup "localOnly" exBundle :=
  C10_local_keys_preserved exBundle apiBundle "localOnly" (by decide) (by decide)
    (by
      intro v hv
      have h2 : dictLookup "dayList" exBundle = some (Val.days [dayJun1]) := rfl
      have h3 := Option.some.inj (h2.symm.trans hv)
      exact ⟨[dayJun1], h3.symm, by decide, by decide⟩)

/-- A normal pagination result is a sublist of the buffer it started with
followed by the concatenation of all served pages' items. -/
theorem fetchLoop_sublist (known : List String) :
    ∀ (remote : List PageResp) (page : Nat) (acc : List Activity) (reqd : Nat)
      (out : List Activity) (n : Nat),
      fetchLoop known remote page acc reqd = FetchOut.done out n →
      List.Sublist out (acc ++ (remote.map PageResp.dataItems).flatten) := by
  intro remote
  induction remote with
  | nil =>
    intro page acc reqd out n h
    injection h with h1 h2
    subst h1
    simp
  | cons p rest ih =>
    intro page acc reqd out n h
    cases p with
    | httpError => exact FetchOut.noConfusion h
    | envelope res dl tp =>
      simp only [fetchLoop] at h
      simp only [List.map_cons, List.flatten_cons, PageResp.dataItems]
      split_ifs at h with h1 h2 h3 h4 h5
      · injection h with ha hb
        subst ha
        exact List.sublist_append_left _ _
      · injection h with ha hb
        subst ha
        exact List.sublist_append_left _ _
      · injection h with ha hb
        subst ha
        exact (dl.filter_sublist.trans (List.sublist_append_left _ _)).append_left acc
      · injection h with ha hb
        subst ha
        exact (dl.filter_sublist.trans (List.sublist_append_left _ _)).append_left acc
      · injection h with ha hb
        subst ha
        exact (dl.filter_sublist.trans (List.sublist_append_left _ _)).append_left acc
      · have hsub := ih (page + 1)
          (acc ++ dl.filter (fun a => decide (a.labelId ∉ known))) (reqd + 1) out n h
        refine hsub.trans ?_
        rw [List.append_assoc]
        exact (List.Sublist.append dl.filter_sublist (List.Sublist.refl _)).append_left acc

/-- Every item a normally finished pagination returns beyond its initial
buffer was admitted by the known-id filter. -/
theorem fetchLoop_not_known (known : List String) :
    ∀ (remote : List PageResp) (page : Nat) (acc : List Activity) (reqd : Nat)
      (out : List Activity) (n : Nat),
      fetchLoop known remote page acc reqd = FetchOut.done out n →
      (∀ a ∈ acc, a.labelId ∉ known) →
      ∀ a ∈ out, a.labelId ∉ known := by
  intro remote
  induction remote with
  | nil =>
    intro page acc reqd out n h hacc
    injection h with h1 h2
    subst h1
    exact hacc
  | cons p rest ih =>
    intro page acc reqd out n h hacc
    cases p with
    | httpError => exact FetchOut.noConfusion h
    | envelope res dl tp =>
      simp only [fetchLoop] at h
      have hfilt : ∀ a ∈ acc ++ dl.filter (fun a => decide (a.labelId ∉ known)),
          a.labelId ∉ known := by
        intro a ha
        rcases List.mem_append.mp ha with ha2 | ha2
        · exact hacc a ha2
        · have := (List.mem_filter.mp ha2).2
          simpa using this
      split_ifs at h with h1 h2 h3 h4 h5
      · injection h with ha hb
        subst ha
        exact hacc
      · injection h with ha hb
        subst ha
        exact hacc
      · injection h with ha hb
        subst ha
        exact hfilt
      · injection h with ha hb
        subst ha
        exact hfilt
      · injection h with ha hb
        subst ha
        exact hfilt
      · exact ih (page + 1) _ (reqd + 1) out n h hfilt

/-- C1 counterexample: the claim fails as stated.  With an empty local
document, a run whose two fetched pages both carry labelId "X" (page 1:
[X]; page 2: [X, Y]) persists two records with labelId "X": the known-id
set is not updated between pages within a run, so a labelId repeated
across the pages of one run is duplicated. -/
theorem C1_counterexample :
    ¬ ((((sync_activities none
        [PageResp.envelope "0000" [actX] 2,
         PageResp.envelope "0000" [actX, actY] 2]).1).getD []).map
      (fun a => a.labelId)).Nodup := by
  decide

/-- C1 amended: after a sync run the persisted document contains at most one
record per labelId, provided the document already satisfied that invariant
and the pages fetched within the run do not repeat a labelId among
themselves; repetition across runs is always deduplicated (via the known-id
set derived from the persisted document). -/
theorem C1_amended (file : Option (List Activity)) (remote : List PageResp)
    (h1 : ((file.getD []).map (fun a => a.labelId)).Nodup)
    (h2 : (((remote.map PageResp.dataItems).flatten).map (fun a => a.labelId)).Nodup) :
    (((sync_activities file remote).1.getD []).map (fun a => a.labelId)).Nodup := by
  unfold sync_activities
  cases hf : fetch_activities ((file.getD []).map (fun a => a.labelId)) remote with
  | raised n =>
    simp [hf]
    exact h1
  | done newItems n =>
    by_cases hn : newItems = []
    · simp [hf, hn]
      exact h1
    · simp [hf, hn]
      have hf2 : fetchLoop ((file.getD []).map (fun a => a.labelId)) remote 1 [] 0
          = FetchOut.done newItems n := hf
      have hsub : List.Sublist newItems ((remote.map PageResp.dataItems).flatten) := by
        have := fetchLoop_sublist ((file.getD []).map (fun a => a.labelId))
          remote 1 [] 0 newItems n hf2
        simpa using this
      have hnew : (newItems.map (fun a => a.labelId)).Nodup :=
        h2.sublist (hsub.map _)
      have hnk : ∀ a ∈ newItems,
          a.labelId ∉ (file.getD []).map (fun a => a.labelId) :=
        fetchLoop_not_known _ remote 1 [] 0 newItems n hf2 (by simp)
      have hcat : ((newItems ++ file.getD []).map (fun a => a.labelId)).Nodup := by
        rw [List.map_append, List.nodup_append]
        refine ⟨hnew, h1, ?_⟩
        intro x hx hx2
        obtain ⟨a, ha, rfl⟩ := List.mem_map.mp hx
        exact hnk a ha hx2
      have hperm := (List.perm_insertionSort startTimeGe
        (newItems ++ file.getD [])).map (fun a => a.labelId)
      exact hperm.nodup_iff.mpr hcat

/-- Witness for the amended C1: a run over a duplicate-free page against a
duplicate-free document yields a duplicate-free document. -/
theorem C1_amended_witness :
    (((sync_activities (some [actA])
        [PageResp.envelope "0000" [actC, actB] 1]).1.getD []).map
      (fun a => a.labelId)).Nodup :=
  C1_amended _ _ (by decide) (by decide)

/-- Running the loop through fully-new success pages into an envelope-error
page: the error stops pagination and the loop returns everything accumulated
from the pages before it. -/
theorem fetchLoop_envelope_stop (known : List String) :
    ∀ (good rest : List PageResp) (badres : String) (baddl : List Activity)
      (badtp page : Nat) (acc : List Activity) (reqd : Nat),
      (∀ p ∈ good, ∃ dl tp, p = PageResp.envelope "0000" dl tp ∧ dl ≠ []
        ∧ (∀ a ∈ dl, a.labelId ∉ known) ∧ page + good.length ≤ tp) →
      badres ≠ "0000" →
      fetchLoop known (good ++ PageResp.envelope badres baddl badtp :: rest) page acc reqd
        = FetchOut.done (acc ++ (good.map PageResp.dataItems).flatten)
            (reqd + good.length + 1) := by
  intro good
  induction good with
  | nil =>
    intro rest badres baddl badtp page acc reqd hgood hbad
    simp only [List.nil_append, fetchLoop]
    rw [if_pos hbad]
    simp
  | cons p good ih =>
    intro rest badres baddl badtp page acc reqd hgood hbad
    obtain ⟨dl, tp, rfl, hdl, hnew, htp⟩ := hgood p (List.mem_cons_self _ _)
    have hfilter : dl.filter (fun a => decide (a.labelId ∉ known)) = dl :=
      List.filter_eq_self.mpr (fun a ha => by simpa using hnew a ha)
    have hlen0 : ¬ dl.length = 0 := by
      intro hc
      exact hdl (List.length_eq_zero.mp hc)
    have hpage : ¬ tp ≤ page := by
      simp only [List.length_cons] at htp
      omega
    simp only [List.cons_append, fetchLoop, hfilter]
    rw [if_neg (by simp), if_neg hdl, if_neg hlen0, if_neg (lt_irrefl dl.length),
      if_neg hpage]
    have hgood2 : ∀ q ∈ good, ∃ dl2 tp2, q = PageResp.envelope "0000" dl2 tp2
        ∧ dl2 ≠ [] ∧ (∀ a ∈ dl2, a.labelId ∉ known)
        ∧ (page + 1) + good.length ≤ tp2 := by
      intro q hq
      obtain ⟨dl2, tp2, rfl, hq1, hq2, hq3⟩ := hgood q (List.mem_cons_of_mem _ hq)
      refine ⟨dl2, tp2, rfl, hq1, hq2, ?_⟩
      simp only [List.length_cons] at hq3
      omega
    rw [List.append_eq]
    rw [ih rest badres baddl badtp (page + 1) (acc ++ dl) (reqd + 1) hgood2 hbad]
    simp only [List.map_cons, List.flatten_cons, PageResp.dataItems, List.length_cons]
    rw [List.append_assoc]
    congr 1
    omega

/-- C2 counterexample: the claim fails as stated for an HTTP error.  Page 1
succeeds with the new item X; page 2 is an HTTP error.  The claim requires X
to be merged and persisted, but the exception escapes `sync_activities`
before any write: the document is left absent and X is lost. -/
theorem C2_counterexample :
    sync_activities none [PageResp.envelope "0000" [actX] 2, PageResp.httpError]
      = (none, SyncActOut.raised 2) := by
  decide

/-- C2 amended: (i) when a run aborts through an HTTP-level page failure, the
whole Activity sync raises and nothing is persisted — items accumulated from
earlier pages are discarded; (ii) a non-success envelope on a later page, by
contrast, only stops the remaining pagination: the new items accumulated from
the fully-new pages before it are still merged and persisted. -/
theorem C2_amended :
    (∀ (file : Option (List Activity)) (remote : List PageResp) (n : Nat),
      (sync_activities file remote).2 = SyncActOut.raised n →
      (sync_activities file remote).1 = file)
    ∧ (∀ (file : Option (List Activity)) (good rest : List PageResp)
        (badres : String) (baddl : List Activity) (badtp : Nat),
      (∀ p ∈ good, ∃ dl tp, p = PageResp.envelope "0000" dl tp ∧ dl ≠ []
        ∧ (∀ a ∈ dl, a.labelId ∉ (file.getD []).map (fun x => x.labelId))
        ∧ 1 + good.length ≤ tp) →
      badres ≠ "0000" → good ≠ [] →
      (sync_activities file (good ++ PageResp.envelope badres baddl badtp :: rest)).1
        = some (List.insertionSort startTimeGe
            ((good.map PageResp.dataItems).flatten ++ file.getD []))) := by
  constructor
  · intro file remote n h
    unfold sync_activities at h ⊢
    cases hf : fetch_activities ((file.getD []).map (fun a => a.labelId)) remote with
    | raised m => simp [hf]
    | done out m =>
      by_cases ho : out = [] <;> simp [hf, ho] at h
  · intro file good rest badres baddl badtp hgood hbad hne
    have hf : fetchLoop ((file.getD []).map (fun a => a.labelId))
        (good ++ PageResp.envelope badres baddl badtp :: rest) 1 [] 0
        = FetchOut.done ([] ++ (good.map PageResp.dataItems).flatten)
            (0 + good.length + 1) :=
      fetchLoop_envelope_stop _ good rest badres baddl badtp 1 [] 0 hgood hbad
    have hflat : (good.map PageResp.dataItems).flatten ≠ [] := by
      cases good with
      | nil => exact absurd rfl hne
      | cons p g2 =>
        obtain ⟨dl, tp, rfl, hdl, h2, h3⟩ := hgood p (List.mem_cons_self _ _)
        simp only [List.map_cons, List.flatten_cons, PageResp.dataItems]
        intro hc
        exact hdl (List.append_eq_nil.mp hc).1
    have hf3 : fetch_activities ((file.getD []).map (fun a => a.labelId))
        (good ++ PageResp.envelope badres baddl badtp :: rest)
        = FetchOut.done ((good.map PageResp.dataItems).flatten)
            (good.length + 1) := by
      rw [fetch_activities, hf]
      simp
    unfold sync_activities
    simp [hf3, hflat]

/-- Witness for the amended C2 at concrete runs: an HTTP error on page 2
loses page 1's new item X (no write), while an envelope error on page 2
still persists X. -/
theorem C2_amended_witness :
    (sync_activities none [PageResp.envelope "0000" [actX] 2, PageResp.httpError]).1
      = none
    ∧ (sync_activities none
        [PageResp.envelope "0000" [actX] 2, PageResp.envelope "1999" [] 1]).1
      = some [actX] := by
  constructor
  · exact C2_amended.1 none _ 2 (by decide)
  · have h := C2_amended.2 none [PageResp.envelope "0000" [actX] 2] []
      "1999" [] 1
      (by
        intro p hp
        simp only [List.mem_singleton] at hp
        subst hp
        exact ⟨[actX], 2, rfl, by decide, by decide, by decide⟩)
      (by decide) (by decide)
    exact h.trans (by decide)

end Coros
